import Mathlib

/-!
# Verification of the logging adapters of `sijiutech-pkg`

Two Go files are embedded here:

* `log/gin_logger.go`: `ginLoggerWriter.Write` and `SetupGinLogger`, the write-sinks that
  redirect the HTTP framework's output into the structured logger;
* `log/sql_logger.go`: `sqlLogger`, the decorator over a database handle that times every
  call and logs it.

Both files are short sequences of calls into collaborators that live outside the
repository (the `time` package, `database/sql`, `zap`, `strings`).  The collaborators are
modelled as follows.

* The program runs in a `World`: the state `ext` of everything outside the program (the
  database, the logger's backend), an oracle `clock` giving the successive readings of the
  monotonic clock, and an append-only `trace` of the effects the program performed, in
  program order.
* A database handle is a record of arbitrary state transitions on `ext`.
* A structured logger records every entry handed to it in the trace and then passes it to
  an arbitrary `sink` transition on `ext`.  An `Entry` is therefore a call of `Debug`,
  `Error` or `Log` on the logger; what the backend does with it (encoding, its own level
  filter) is the backend's business.
* Go strings and byte slices are lists of bytes.
-/

namespace SijiutechPkg

/-! ## Go primitives -/

/-- A Go `string` (and a `[]byte`): a finite sequence of bytes. -/
abbrev GoString := List UInt8

/-- The bytes of a string literal of the source (UTF-8). -/
def goStr (s : String) : GoString := s.toList.flatMap String.utf8EncodeChar

/-- The conversion `string(p)` of a byte slice: the same bytes. -/
def string (p : List UInt8) : GoString := p

/-- The built-in `len` of a byte slice, a Go `int`. -/
def len (p : List UInt8) : Int := p.length

/-- The loop of `strings.trimRightByte`:
`for len(s) > 0 && s[len(s)-1] == c { s = s[:len(s)-1] }`, with the iteration count bounded
by `fuel`. -/
def trimRightLoop (c : UInt8) : Nat → GoString → GoString
  | 0, s => s
  | fuel + 1, s =>
    if s.length > 0 ∧ s.getLast? = some c then trimRightLoop c fuel s.dropLast else s

/-- The function `strings.trimRightByte(s, c)`.  Every iteration shortens `s`, so `len(s)`
iterations are enough. -/
def trimRightByte (s : GoString) (c : UInt8) : GoString :=
  trimRightLoop c s.length s

/-- The function `strings.TrimRight(s, cutset)` on its single-ASCII-byte path, the one
taken for the cutset `"\n"`: `if len(cutset) == 1 && cutset[0] < utf8.RuneSelf
{ return trimRightByte(s, cutset[0]) }`.  Other cutsets are outside this model and leave
`s` as it is here. -/
def TrimRight (s : GoString) (cutset : GoString) : GoString :=
  match cutset with
  | [c] => if c < 128 then trimRightByte s c else s
  | _ => s

/-- Wrap-around of a mathematical integer into Go's `int64`. -/
def wrapInt64 (x : Int) : Int := (x + 2 ^ 63) % 2 ^ 64 - 2 ^ 63

/-- The constant `maxDuration` of package `time`. -/
def maxDuration : Int := 2 ^ 63 - 1

/-- The constant `minDuration` of package `time`. -/
def minDuration : Int := -(2 ^ 63)

/-- The function `subMono(t, u)` of package `time`: the difference of two monotonic clock
readings as a `Duration` (an `int64` of nanoseconds), saturating on overflow. -/
def subMono (t u : Int) : Int :=
  let d := wrapInt64 (t - u)
  if d < 0 ∧ t > u then maxDuration
  else if d > 0 ∧ t < u then minDuration
  else d

/-! ## The structured logger (`zap`) -/

/-- A `zapcore.Level`. -/
abbrev Level := Int

/-- The constant `zapcore.DebugLevel`. -/
def DebugLevel : Level := -1

/-- The constant `zapcore.InfoLevel`. -/
def InfoLevel : Level := 0

/-- The constant `zapcore.ErrorLevel`. -/
def ErrorLevel : Level := 2

/-- A `zap.Field`, as built by the four constructors the source uses. -/
inductive Field (Arg Err : Type) where
  | String (key : GoString) (val : GoString)
  | Any (key : GoString) (val : List Arg)
  | Duration (key : GoString) (val : Int)
  | Error (key : GoString) (val : Err)
  | Skip
deriving DecidableEq, Repr

/-- The constructor `zap.String(key, val)`. -/
def zapString {Arg Err : Type} (key val : GoString) : Field Arg Err := Field.String key val

/-- The constructor `zap.Any(key, value)`, used on the parameter slice. -/
def zapAny {Arg Err : Type} (key : GoString) (val : List Arg) : Field Arg Err :=
  Field.Any key val

/-- The constructor `zap.Duration(key, val)`. -/
def zapDuration {Arg Err : Type} (key : GoString) (val : Int) : Field Arg Err :=
  Field.Duration key val

/-- The constructor `zap.Error(err)`: the field `"error"` holding `err`, and a skipped
field for a nil error.  A Go `error` is `none` when nil. -/
def zapError {Arg Err : Type} (err : Option Err) : Field Arg Err :=
  match err with
  | some e => Field.Error (goStr "error") e
  | none => Field.Skip

/-- A log entry handed to the structured logger: its level, the call context the logger
was bound to (if any), the message and the fields. -/
structure Entry (Ctx Arg Err : Type) where
  level : Level
  scope : Option Ctx
  msg : GoString
  fields : List (Field Arg Err)
deriving DecidableEq, Repr

/-- The four operations of a database handle. -/
inductive Op where
  | Exec
  | Prepare
  | Query
  | QueryRow
deriving DecidableEq, Repr

/-- An effect performed by the program. -/
inductive Event (Ctx Arg Err : Type) where
  | clockRead (t : Int)
  | dbCall (op : Op) (ctx : Ctx) (query : GoString) (args : List Arg)
  | logEntry (e : Entry Ctx Arg Err)
deriving DecidableEq, Repr

/-- The state a call runs in. -/
structure World (S Ctx Arg Err : Type) where
  ext : S
  clock : Nat → Int
  tick : Nat
  trace : List (Event Ctx Arg Err)

/-- Computations of the program: state passing over the world. -/
abbrev M (S Ctx Arg Err : Type) (α : Type) := StateM (World S Ctx Arg Err) α

/-- Performs one effect: appends it to the trace. -/
def emit {S Ctx Arg Err : Type} (ev : Event Ctx Arg Err) : M S Ctx Arg Err Unit :=
  modify fun w => { w with trace := w.trace ++ [ev] }

/-- Reads the monotonic clock: the next reading of the oracle. -/
def readClock {S Ctx Arg Err : Type} : M S Ctx Arg Err Int := do
  let w ← get
  let t := w.clock w.tick
  set { w with tick := w.tick + 1 }
  emit (Event.clockRead t)
  return t

/-- The function `time.Now()`; only the monotonic reading of the result is kept. -/
def timeNow {S Ctx Arg Err : Type} : M S Ctx Arg Err Int := readClock

/-- The function `time.Since(start)`: reads the clock and subtracts. -/
def timeSince {S Ctx Arg Err : Type} (start : Int) : M S Ctx Arg Err Int := do
  let now ← readClock
  return subMono now start

/-- A `*zap.Logger`: the level enabler of its core, the call context it is bound to, and
what its backend does with an entry. -/
structure ZapLogger (S Ctx Arg Err : Type) where
  enabled : Level → Bool
  scope : Option Ctx
  sink : Entry Ctx Arg Err → S → S

/-- Hands an entry to the logger. -/
def ZapLogger.write {S Ctx Arg Err : Type} (l : ZapLogger S Ctx Arg Err)
    (e : Entry Ctx Arg Err) : M S Ctx Arg Err Unit := do
  emit (Event.logEntry e)
  modify fun w => { w with ext := l.sink e w.ext }

/-- The method `Logger.Log(lvl, msg)`. -/
def ZapLogger.Log {S Ctx Arg Err : Type} (l : ZapLogger S Ctx Arg Err) (lvl : Level)
    (msg : GoString) : M S Ctx Arg Err Unit :=
  l.write { level := lvl, scope := l.scope, msg := msg, fields := [] }

/-- The method `Logger.Debug(msg, fields...)`. -/
def ZapLogger.Debug {S Ctx Arg Err : Type} (l : ZapLogger S Ctx Arg Err) (msg : GoString)
    (fields : List (Field Arg Err)) : M S Ctx Arg Err Unit :=
  l.write { level := DebugLevel, scope := l.scope, msg := msg, fields := fields }

/-- The method `Logger.Error(msg, fields...)`. -/
def ZapLogger.Error {S Ctx Arg Err : Type} (l : ZapLogger S Ctx Arg Err) (msg : GoString)
    (fields : List (Field Arg Err)) : M S Ctx Arg Err Unit :=
  l.write { level := ErrorLevel, scope := l.scope, msg := msg, fields := fields }

/-- The repository's `log.Logger`, which embeds a `*zap.Logger` (the embedded field
`l.Logger` of the source, here `zapLogger`). -/
structure Logger (S Ctx Arg Err : Type) where
  zapLogger : ZapLogger S Ctx Arg Err

/-- Modelled from the spec: `Logger.WithContext` is not among the source files; the spec
describes it as "a context-bound accessor that returns a logger pre-associated with
request/trace metadata from a given call context". -/
def Logger.WithContext {S Ctx Arg Err : Type} (l : Logger S Ctx Arg Err) (ctx : Ctx) :
    ZapLogger S Ctx Arg Err :=
  { l.zapLogger with scope := some ctx }

/-! ## `log/gin_logger.go` -/

/-- The struct `ginLoggerWriter`. -/
structure ginLoggerWriter (S Ctx Arg Err : Type) where
  logger : ZapLogger S Ctx Arg Err
  level : Level

/-- The method `ginLoggerWriter.Write`. -/
def ginLoggerWriter.Write {S Ctx Arg Err : Type} (w : ginLoggerWriter S Ctx Arg Err)
    (p : List UInt8) : M S Ctx Arg Err (Int × Option Err) := do
  let msg := TrimRight (string p) (goStr "\n")
  if w.logger.enabled w.level then
    w.logger.Log w.level msg
  return (len p, none)

/-- The two global sinks of the HTTP framework. -/
structure GinWriters (S Ctx Arg Err : Type) where
  DefaultWriter : ginLoggerWriter S Ctx Arg Err
  DefaultErrorWriter : ginLoggerWriter S Ctx Arg Err

/-- The method `Logger.SetupGinLogger`: the values it assigns to `gin.DefaultWriter` and
`gin.DefaultErrorWriter`. -/
def Logger.SetupGinLogger {S Ctx Arg Err : Type} (l : Logger S Ctx Arg Err) :
    GinWriters S Ctx Arg Err :=
  { DefaultWriter := { logger := l.zapLogger, level := InfoLevel }
    DefaultErrorWriter := { logger := l.zapLogger, level := ErrorLevel } }

/-! ## `log/sql_logger.go` -/

/-- A `*sql.DB`: each operation is an arbitrary transition on the outside state that
returns its results.  A nil `error` is `none`. -/
structure DB (S Ctx Arg Err Res Stmt Rows Row : Type) where
  exec : Ctx → GoString → List Arg → S → (Res × Option Err) × S
  prepare : Ctx → GoString → S → (Stmt × Option Err) × S
  query : Ctx → GoString → List Arg → S → (Rows × Option Err) × S
  queryRow : Ctx → GoString → List Arg → S → Row × S

/-- The method `(*sql.DB).ExecContext`. -/
def DB.ExecContext {S Ctx Arg Err Res Stmt Rows Row : Type}
    (db : DB S Ctx Arg Err Res Stmt Rows Row) (ctx : Ctx) (query : GoString)
    (args : List Arg) : M S Ctx Arg Err (Res × Option Err) := do
  emit (Event.dbCall Op.Exec ctx query args)
  let w ← get
  let r := db.exec ctx query args w.ext
  set { w with ext := r.2 }
  return r.1

/-- The method `(*sql.DB).PrepareContext`. -/
def DB.PrepareContext {S Ctx Arg Err Res Stmt Rows Row : Type}
    (db : DB S Ctx Arg Err Res Stmt Rows Row) (ctx : Ctx) (query : GoString) :
    M S Ctx Arg Err (Stmt × Option Err) := do
  emit (Event.dbCall Op.Prepare ctx query [])
  let w ← get
  let r := db.prepare ctx query w.ext
  set { w with ext := r.2 }
  return r.1

/-- The method `(*sql.DB).QueryContext`. -/
def DB.QueryContext {S Ctx Arg Err Res Stmt Rows Row : Type}
    (db : DB S Ctx Arg Err Res Stmt Rows Row) (ctx : Ctx) (query : GoString)
    (args : List Arg) : M S Ctx Arg Err (Rows × Option Err) := do
  emit (Event.dbCall Op.Query ctx query args)
  let w ← get
  let r := db.query ctx query args w.ext
  set { w with ext := r.2 }
  return r.1

/-- The method `(*sql.DB).QueryRowContext`. -/
def DB.QueryRowContext {S Ctx Arg Err Res Stmt Rows Row : Type}
    (db : DB S Ctx Arg Err Res Stmt Rows Row) (ctx : Ctx) (query : GoString)
    (args : List Arg) : M S Ctx Arg Err Row := do
  emit (Event.dbCall Op.QueryRow ctx query args)
  let w ← get
  let r := db.queryRow ctx query args w.ext
  set { w with ext := r.2 }
  return r.1

/-- The struct `sqlLogger`. -/
structure sqlLogger (S Ctx Arg Err Res Stmt Rows Row : Type) where
  db : DB S Ctx Arg Err Res Stmt Rows Row
  logger : Logger S Ctx Arg Err

/-- The constructor `NewSQLLogger`. -/
def NewSQLLogger {S Ctx Arg Err Res Stmt Rows Row : Type}
    (db : DB S Ctx Arg Err Res Stmt Rows Row) (logger : Logger S Ctx Arg Err) :
    sqlLogger S Ctx Arg Err Res Stmt Rows Row :=
  { db := db, logger := logger }

/-- The method `sqlLogger.ExecContext`. -/
def sqlLogger.ExecContext {S Ctx Arg Err Res Stmt Rows Row : Type}
    (s : sqlLogger S Ctx Arg Err Res Stmt Rows Row) (ctx : Ctx) (query : GoString)
    (args : List Arg) : M S Ctx Arg Err (Res × Option Err) := do
  let start ← timeNow
  let (result, err) ← s.db.ExecContext ctx query args
  let duration ← timeSince start
  let logFields : List (Field Arg Err) :=
    [zapString (goStr "sql") query, zapAny (goStr "args") args,
      zapDuration (goStr "duration") duration]
  if err.isSome then
    let logFields := logFields ++ [zapError err]
    (s.logger.WithContext ctx).Error (goStr "SQL Exec") logFields
  else
    (s.logger.WithContext ctx).Debug (goStr "SQL Exec") logFields
  return (result, err)

/-- The method `sqlLogger.PrepareContext`. -/
def sqlLogger.PrepareContext {S Ctx Arg Err Res Stmt Rows Row : Type}
    (s : sqlLogger S Ctx Arg Err Res Stmt Rows Row) (ctx : Ctx) (query : GoString) :
    M S Ctx Arg Err (Stmt × Option Err) := do
  let start ← timeNow
  let (stmt, err) ← s.db.PrepareContext ctx query
  let duration ← timeSince start
  let logFields : List (Field Arg Err) :=
    [zapString (goStr "sql") query, zapDuration (goStr "duration") duration]
  if err.isSome then
    let logFields := logFields ++ [zapError err]
    (s.logger.WithContext ctx).Error (goStr "SQL Prepare") logFields
  else
    (s.logger.WithContext ctx).Debug (goStr "SQL Prepare") logFields
  return (stmt, err)

/-- The method `sqlLogger.QueryContext`. -/
def sqlLogger.QueryContext {S Ctx Arg Err Res Stmt Rows Row : Type}
    (s : sqlLogger S Ctx Arg Err Res Stmt Rows Row) (ctx : Ctx) (query : GoString)
    (args : List Arg) : M S Ctx Arg Err (Rows × Option Err) := do
  let start ← timeNow
  let (rows, err) ← s.db.QueryContext ctx query args
  let duration ← timeSince start
  let logFields : List (Field Arg Err) :=
    [zapString (goStr "sql") query, zapAny (goStr "args") args,
      zapDuration (goStr "duration") duration]
  if err.isSome then
    let logFields := logFields ++ [zapError err]
    (s.logger.WithContext ctx).Error (goStr "SQL Query") logFields
  else
    (s.logger.WithContext ctx).Debug (goStr "SQL Query") logFields
  return (rows, err)

/-- The method `sqlLogger.QueryRowContext`. -/
def sqlLogger.QueryRowContext {S Ctx Arg Err Res Stmt Rows Row : Type}
    (s : sqlLogger S Ctx Arg Err Res Stmt Rows Row) (ctx : Ctx) (query : GoString)
    (args : List Arg) : M S Ctx Arg Err Row := do
  let start ← timeNow
  let row ← s.db.QueryRowContext ctx query args
  let duration ← timeSince start
  (s.logger.WithContext ctx).Debug (goStr "SQL QueryRow")
    [zapString (goStr "sql") query, zapAny (goStr "args") args,
      zapDuration (goStr "duration") duration]
  return row

/-! ## Observations on traces -/

/-- The log entries of a trace, in order. -/
def logEntries {Ctx Arg Err : Type} (tr : List (Event Ctx Arg Err)) :
    List (Entry Ctx Arg Err) :=
  tr.filterMap fun ev =>
    match ev with
    | Event.logEntry e => some e
    | _ => none

/-- The calls of the underlying database handle in a trace, in order. -/
def dbCalls {Ctx Arg Err : Type} (tr : List (Event Ctx Arg Err)) :
    List (Op × Ctx × GoString × List Arg) :=
  tr.filterMap fun ev =>
    match ev with
    | Event.dbCall op ctx query args => some (op, ctx, query, args)
    | _ => none

/-- The events a run added to the trace of the world it started in. -/
def newEvents {S Ctx Arg Err : Type} (before after : World S Ctx Arg Err) :
    List (Event Ctx Arg Err) :=
  after.trace.drop before.trace.length

/-- The clock is a non-decreasing sequence of monotonic readings: nanoseconds since the
start of the process, held in an `int64`. -/
def ClockOK (clock : Nat → Int) : Prop :=
  (∀ i, 0 ≤ clock i ∧ clock i < 2 ^ 63) ∧ ∀ i j, i ≤ j → clock i ≤ clock j

/-- The entry a decorator call writes, by the two branches of its `if err != nil`: at
Error level with the error appended to the fields, or at Debug level with the fields. -/
def branchEntry {Ctx Arg Err : Type} (ctx : Ctx) (msg : GoString)
    (fields : List (Field Arg Err)) (err : Option Err) : Entry Ctx Arg Err :=
  match err with
  | some e =>
    { level := ErrorLevel, scope := some ctx, msg := msg,
      fields := fields ++ [Field.Error (goStr "error") e] }
  | none => { level := DebugLevel, scope := some ctx, msg := msg, fields := fields }

/-- The world a decorator call ends in: two clock readings consumed, the handle's new
outside state passed through the logger's sink, four events added. -/
def afterCall {S Ctx Arg Err : Type} (w : World S Ctx Arg Err) (sink : Entry Ctx Arg Err → S → S)
    (op : Op) (ctx : Ctx) (query : GoString) (args : List Arg) (ext : S)
    (e : Entry Ctx Arg Err) : World S Ctx Arg Err :=
  { ext := sink e ext
    clock := w.clock
    tick := w.tick + 2
    trace := w.trace ++ [Event.clockRead (w.clock w.tick), Event.dbCall op ctx query args,
      Event.clockRead (w.clock (w.tick + 1)), Event.logEntry e] }

/-! ## Concrete inputs -/

/-- A clock that advances ten nanoseconds per reading, up to its thousandth reading. -/
def exClock (i : Nat) : Int := 10 * (min i 1000 : Nat)

/-- A world with the example clock, before any effect. -/
def exWorld : World Nat Nat Nat Nat :=
  { ext := 0, clock := exClock, tick := 0, trace := [] }

/-- A logger with every level enabled, whose sink counts the entries in hundreds. -/
def exLogger : Logger Nat Nat Nat Nat :=
  { zapLogger := { enabled := fun _ => true, scope := none, sink := fun _ s => s + 100 } }

/-- A logger with no level enabled. -/
def exQuietLogger : Logger Nat Nat Nat Nat :=
  { zapLogger := { enabled := fun _ => false, scope := none, sink := fun _ s => s + 100 } }

/-- The error of the example handle: error `3` on the empty statement, nil otherwise. -/
def exError (q : GoString) : Option Nat :=
  match q with
  | [] => some 3
  | _ => none

/-- A handle that fails with error `3` on the empty statement and succeeds otherwise,
returning the number of calls made so far. -/
def exDB : DB Nat Nat Nat Nat Nat Nat Nat Nat :=
  { exec := fun _ q _ s => ((s, exError q), s + 1)
    prepare := fun _ q s => ((s, exError q), s + 1)
    query := fun _ q _ s => ((s, exError q), s + 1)
    queryRow := fun _ _ _ s => (s, s + 1) }

/-- The ordinary-output sink installed by `SetupGinLogger` on the example logger. -/
def exWriter : ginLoggerWriter Nat Nat Nat Nat := exLogger.SetupGinLogger.DefaultWriter

/-- The ordinary-output sink installed on the logger with no level enabled. -/
def exQuietWriter : ginLoggerWriter Nat Nat Nat Nat :=
  exQuietLogger.SetupGinLogger.DefaultWriter

/-- The decorator over `exDB`. -/
def exSQL : sqlLogger Nat Nat Nat Nat Nat Nat Nat Nat := NewSQLLogger exDB exLogger

/-! ## Lemmas on the Go primitives -/

/-- With fuel at least `len(s)` the loop runs to its exit test: it removes a run of
trailing `c` bytes and what is left does not end in `c`. -/
theorem trimRightLoop_spec (c : UInt8) :
    ∀ (fuel : Nat) (s : GoString), s.length ≤ fuel →
      ∃ k, s = trimRightLoop c fuel s ++ List.replicate k c ∧
        (trimRightLoop c fuel s).getLast? ≠ some c := by
  intro fuel
  induction fuel with
  | zero =>
    intro s hs
    have hnil : s = [] := List.length_eq_zero.mp (Nat.le_zero.mp hs)
    subst hnil
    exact ⟨0, by simp [trimRightLoop], by simp [trimRightLoop]⟩
  | succ n ih =>
    intro s hs
    by_cases hc : s.length > 0 ∧ s.getLast? = some c
    · have hsplit : s.dropLast ++ [c] = s :=
        List.dropLast_append_getLast? c (by simp [hc.2])
      have hlen : s.dropLast.length ≤ n := by
        rw [List.length_dropLast]
        omega
      obtain ⟨k, hk, hlast⟩ := ih s.dropLast hlen
      refine ⟨k + 1, ?_, ?_⟩
      · simp only [trimRightLoop, if_pos hc]
        rw [List.replicate_succ', ← List.append_assoc, ← hk]
        exact hsplit.symm
      · simpa only [trimRightLoop, if_pos hc] using hlast
    · refine ⟨0, by simp [trimRightLoop, if_neg hc], ?_⟩
      simp only [trimRightLoop, if_neg hc]
      intro hlast
      apply hc
      refine ⟨?_, hlast⟩
      cases s with
      | nil => simp at hlast
      | cons a t => simp

/-- The call `strings.TrimRight(s, "\n")` takes the single-byte path with byte 10. -/
theorem TrimRight_newline (s : GoString) :
    TrimRight s (goStr "\n") = trimRightByte s 10 := by
  have h : goStr "\n" = [10] := by decide
  rw [h]
  simp only [TrimRight]
  rw [if_pos (by decide)]

/-- What `strings.TrimRight(s, "\n")` returns: `s` without its trailing newlines. -/
theorem TrimRight_newline_spec (s : GoString) :
    ∃ k, s = TrimRight s (goStr "\n") ++ List.replicate k 10 ∧
      (TrimRight s (goStr "\n")).getLast? ≠ some 10 := by
  rw [TrimRight_newline]
  exact trimRightLoop_spec 10 s.length s (Nat.le_refl _)

/-- On a non-decreasing clock of monotonic readings `subMono` neither wraps nor saturates. -/
theorem subMono_of_clockOK (clock : Nat → Int) (h : ClockOK clock) (i j : Nat)
    (hij : i ≤ j) :
    subMono (clock j) (clock i) = clock j - clock i ∧ 0 ≤ subMono (clock j) (clock i) := by
  obtain ⟨hr, hm⟩ := h
  have h1 := hr i
  have h2 := hr j
  have h3 := hm i j hij
  have hd : wrapInt64 (clock j - clock i) = clock j - clock i := by
    unfold wrapInt64
    omega
  unfold subMono
  simp only [hd]
  rw [if_neg (by omega), if_neg (by omega)]
  exact ⟨rfl, by omega⟩

/-! ## Symbolic execution of the five methods -/

/-- The result and final world of `ginLoggerWriter.Write`. -/
theorem Write_run {S Ctx Arg Err : Type} (w : ginLoggerWriter S Ctx Arg Err)
    (p : List UInt8) (st : World S Ctx Arg Err) :
    (w.Write p).run st =
      ((len p, none),
        if w.logger.enabled w.level = true then
          { st with
            ext := w.logger.sink
              { level := w.level, scope := w.logger.scope,
                msg := TrimRight (string p) (goStr "\n"), fields := [] } st.ext
            trace := st.trace ++ [Event.logEntry
              { level := w.level, scope := w.logger.scope,
                msg := TrimRight (string p) (goStr "\n"), fields := [] }] }
        else st) := by
  cases h : w.logger.enabled w.level <;>
    simp [ginLoggerWriter.Write, h, ZapLogger.Log, ZapLogger.write, emit, StateT.run, bind,
      StateT.bind, pure, StateT.pure, modify, modifyGet, MonadStateOf.modifyGet,
      StateT.modifyGet]

/-- The result and final world of `sqlLogger.ExecContext`. -/
theorem ExecContext_run {S Ctx Arg Err Res Stmt Rows Row : Type}
    (s : sqlLogger S Ctx Arg Err Res Stmt Rows Row) (ctx : Ctx) (query : GoString)
    (args : List Arg)
    (w : World S Ctx Arg Err) :
    (s.ExecContext ctx query args).run w =
      ((s.db.exec ctx query args w.ext).1,
        afterCall w s.logger.zapLogger.sink Op.Exec ctx query args
          (s.db.exec ctx query args w.ext).2
          (branchEntry ctx (goStr "SQL Exec")
            [Field.String (goStr "sql") query, Field.Any (goStr "args") args,
              Field.Duration (goStr "duration")
                (subMono (w.clock (w.tick + 1)) (w.clock w.tick))]
            (s.db.exec ctx query args w.ext).1.2)) := by
  have key : ∀ r : (Res × Option Err) × S, r = s.db.exec ctx query args w.ext →
      (s.ExecContext ctx query args).run w =
        (r.1, afterCall w s.logger.zapLogger.sink Op.Exec ctx query args r.2
          (branchEntry ctx (goStr "SQL Exec")
            [Field.String (goStr "sql") query, Field.Any (goStr "args") args,
              Field.Duration (goStr "duration")
                (subMono (w.clock (w.tick + 1)) (w.clock w.tick))]
            r.1.2)) := by
    rintro ⟨⟨res, err⟩, s1⟩ h
    cases err <;>
      simp [sqlLogger.ExecContext, DB.ExecContext, StateT.run, bind, StateT.bind, timeNow,
        timeSince, readClock, emit, ZapLogger.Debug, ZapLogger.Error, ZapLogger.write, pure,
        StateT.pure, get, getThe, MonadStateOf.get, StateT.get, set, StateT.set, modify,
        modifyGet, MonadStateOf.modifyGet, StateT.modifyGet, branchEntry, afterCall,
        Logger.WithContext, zapString, zapAny, zapDuration, zapError, ← h]
  exact key _ rfl

/-- The result and final world of `sqlLogger.PrepareContext`. -/
theorem PrepareContext_run {S Ctx Arg Err Res Stmt Rows Row : Type}
    (s : sqlLogger S Ctx Arg Err Res Stmt Rows Row) (ctx : Ctx) (query : GoString)
    (w : World S Ctx Arg Err) :
    (s.PrepareContext ctx query).run w =
      ((s.db.prepare ctx query w.ext).1,
        afterCall w s.logger.zapLogger.sink Op.Prepare ctx query []
          (s.db.prepare ctx query w.ext).2
          (branchEntry ctx (goStr "SQL Prepare")
            [Field.String (goStr "sql") query,
              Field.Duration (goStr "duration")
                (subMono (w.clock (w.tick + 1)) (w.clock w.tick))]
            (s.db.prepare ctx query w.ext).1.2)) := by
  have key : ∀ r : (Stmt × Option Err) × S, r = s.db.prepare ctx query w.ext →
      (s.PrepareContext ctx query).run w =
        (r.1, afterCall w s.logger.zapLogger.sink Op.Prepare ctx query [] r.2
          (branchEntry ctx (goStr "SQL Prepare")
            [Field.String (goStr "sql") query,
              Field.Duration (goStr "duration")
                (subMono (w.clock (w.tick + 1)) (w.clock w.tick))]
            r.1.2)) := by
    rintro ⟨⟨res, err⟩, s1⟩ h
    cases err <;>
      simp [sqlLogger.PrepareContext, DB.PrepareContext, StateT.run, bind, StateT.bind, timeNow,
        timeSince, readClock, emit, ZapLogger.Debug, ZapLogger.Error, ZapLogger.write, pure,
        StateT.pure, get, getThe, MonadStateOf.get, StateT.get, set, StateT.set, modify,
        modifyGet, MonadStateOf.modifyGet, StateT.modifyGet, branchEntry, afterCall,
        Logger.WithContext, zapString, zapAny, zapDuration, zapError, ← h]
  exact key _ rfl

/-- The result and final world of `sqlLogger.QueryContext`. -/
theorem QueryContext_run {S Ctx Arg Err Res Stmt Rows Row : Type}
    (s : sqlLogger S Ctx Arg Err Res Stmt Rows Row) (ctx : Ctx) (query : GoString)
    (args : List Arg)
    (w : World S Ctx Arg Err) :
    (s.QueryContext ctx query args).run w =
      ((s.db.query ctx query args w.ext).1,
        afterCall w s.logger.zapLogger.sink Op.Query ctx query args
          (s.db.query ctx query args w.ext).2
          (branchEntry ctx (goStr "SQL Query")
            [Field.String (goStr "sql") query, Field.Any (goStr "args") args,
              Field.Duration (goStr "duration")
                (subMono (w.clock (w.tick + 1)) (w.clock w.tick))]
            (s.db.query ctx query args w.ext).1.2)) := by
  have key : ∀ r : (Rows × Option Err) × S, r = s.db.query ctx query args w.ext →
      (s.QueryContext ctx query args).run w =
        (r.1, afterCall w s.logger.zapLogger.sink Op.Query ctx query args r.2
          (branchEntry ctx (goStr "SQL Query")
            [Field.String (goStr "sql") query, Field.Any (goStr "args") args,
              Field.Duration (goStr "duration")
                (subMono (w.clock (w.tick + 1)) (w.clock w.tick))]
            r.1.2)) := by
    rintro ⟨⟨res, err⟩, s1⟩ h
    cases err <;>
      simp [sqlLogger.QueryContext, DB.QueryContext, StateT.run, bind, StateT.bind, timeNow,
        timeSince, readClock, emit, ZapLogger.Debug, ZapLogger.Error, ZapLogger.write, pure,
        StateT.pure, get, getThe, MonadStateOf.get, StateT.get, set, StateT.set, modify,
        modifyGet, MonadStateOf.modifyGet, StateT.modifyGet, branchEntry, afterCall,
        Logger.WithContext, zapString, zapAny, zapDuration, zapError, ← h]
  exact key _ rfl

/-- The result and final world of `sqlLogger.QueryRowContext`. -/
theorem QueryRowContext_run {S Ctx Arg Err Res Stmt Rows Row : Type}
    (s : sqlLogger S Ctx Arg Err Res Stmt Rows Row) (ctx : Ctx) (query : GoString)
    (args : List Arg) (w : World S Ctx Arg Err) :
    (s.QueryRowContext ctx query args).run w =
      ((s.db.queryRow ctx query args w.ext).1,
        afterCall w s.logger.zapLogger.sink Op.QueryRow ctx query args
          (s.db.queryRow ctx query args w.ext).2
          { level := DebugLevel, scope := some ctx, msg := goStr "SQL QueryRow",
            fields := [Field.String (goStr "sql") query, Field.Any (goStr "args") args,
              Field.Duration (goStr "duration")
                (subMono (w.clock (w.tick + 1)) (w.clock w.tick))] }) := by
  simp [sqlLogger.QueryRowContext, DB.QueryRowContext, StateT.run, bind, StateT.bind,
    timeNow, timeSince, readClock, emit, ZapLogger.Debug, ZapLogger.write, pure, StateT.pure,
    get, getThe, MonadStateOf.get, StateT.get, set, StateT.set, modify, modifyGet,
    MonadStateOf.modifyGet, StateT.modifyGet, afterCall, Logger.WithContext, zapString,
    zapAny, zapDuration]

/-- The events of a decorator call. -/
theorem newEvents_afterCall {S Ctx Arg Err : Type} (w : World S Ctx Arg Err)
    (sink : Entry Ctx Arg Err → S → S) (op : Op) (ctx : Ctx) (query : GoString)
    (args : List Arg) (ext : S) (e : Entry Ctx Arg Err) :
    newEvents w (afterCall w sink op ctx query args ext e) =
      [Event.clockRead (w.clock w.tick), Event.dbCall op ctx query args,
        Event.clockRead (w.clock (w.tick + 1)), Event.logEntry e] := by
  simp [newEvents, afterCall]

/-- The log entries among the events of a decorator call. -/
theorem logEntries_afterCall {S Ctx Arg Err : Type} (w : World S Ctx Arg Err)
    (sink : Entry Ctx Arg Err → S → S) (op : Op) (ctx : Ctx) (query : GoString)
    (args : List Arg) (ext : S) (e : Entry Ctx Arg Err) :
    logEntries (newEvents w (afterCall w sink op ctx query args ext e)) = [e] := by
  rw [newEvents_afterCall]
  rfl

/-- The calls of the underlying handle among the events of a decorator call. -/
theorem dbCalls_afterCall {S Ctx Arg Err : Type} (w : World S Ctx Arg Err)
    (sink : Entry Ctx Arg Err → S → S) (op : Op) (ctx : Ctx) (query : GoString)
    (args : List Arg) (ext : S) (e : Entry Ctx Arg Err) :
    dbCalls (newEvents w (afterCall w sink op ctx query args ext e)) =
      [(op, ctx, query, args)] := by
  rw [newEvents_afterCall]
  rfl

/-- The level of the entry written by the two branches of `if err != nil`. -/
theorem branchEntry_level {Ctx Arg Err : Type} (ctx : Ctx) (msg : GoString)
    (fields : List (Field Arg Err)) (err : Option Err) :
    ((branchEntry ctx msg fields err).level = ErrorLevel ↔ err ≠ none) ∧
      ((branchEntry ctx msg fields err).level = DebugLevel ↔ err = none) := by
  cases err <;> simp [branchEntry, ErrorLevel, DebugLevel]

/-- The example clock is a non-decreasing clock of monotonic readings. -/
theorem exClock_ok : ClockOK exClock := by
  refine ⟨fun i => ?_, fun i j hij => ?_⟩
  · unfold exClock
    omega
  · unfold exClock
    omega

/-- The error branch adds no duration field. -/
theorem branchEntry_duration {Ctx Arg Err : Type} (ctx : Ctx) (msg : GoString)
    (fields : List (Field Arg Err)) (err : Option Err) (k : GoString) (d : Int) :
    Field.Duration k d ∈ (branchEntry ctx msg fields err).fields ↔
      Field.Duration k d ∈ fields := by
  cases err <;> simp [branchEntry]

/-- The log entries among the events of a call of `Write`. -/
theorem newEvents_write {S Ctx Arg Err : Type} (w : ginLoggerWriter S Ctx Arg Err)
    (p : List UInt8) (st : World S Ctx Arg Err) :
    logEntries (newEvents st ((w.Write p).run st).2) =
      if w.logger.enabled w.level = true then
        [{ level := w.level, scope := w.logger.scope,
           msg := TrimRight (string p) (goStr "\n"), fields := [] }]
      else [] := by
  rw [Write_run]
  cases h : w.logger.enabled w.level <;> simp [newEvents, logEntries]

/-! ## The claims -/

/-- C1: `ExecContext`, `PrepareContext` and `QueryContext` each hand exactly one entry to
the logger, whatever the context, statement, parameters, world and underlying handle; that
entry is at Error level exactly when the underlying call returned a non-nil error and at
Debug level exactly when it returned a nil error.  The level depends on nothing else. -/
theorem C1_level_iff_error {S Ctx Arg Err Res Stmt Rows Row : Type}
    (s : sqlLogger S Ctx Arg Err Res Stmt Rows Row) (ctx : Ctx) (query : GoString) (args : List Arg) (w : World S Ctx Arg Err) :
    (∃ e, logEntries (newEvents w ((s.ExecContext ctx query args).run w).2) = [e] ∧
        (e.level = ErrorLevel ↔ (s.db.exec ctx query args w.ext).1.2 ≠ none) ∧
        (e.level = DebugLevel ↔ (s.db.exec ctx query args w.ext).1.2 = none)) ∧
    (∃ e, logEntries (newEvents w ((s.PrepareContext ctx query).run w).2) = [e] ∧
        (e.level = ErrorLevel ↔ (s.db.prepare ctx query w.ext).1.2 ≠ none) ∧
        (e.level = DebugLevel ↔ (s.db.prepare ctx query w.ext).1.2 = none)) ∧
    (∃ e, logEntries (newEvents w ((s.QueryContext ctx query args).run w).2) = [e] ∧
        (e.level = ErrorLevel ↔ (s.db.query ctx query args w.ext).1.2 ≠ none) ∧
        (e.level = DebugLevel ↔ (s.db.query ctx query args w.ext).1.2 = none)) := by
  rw [ExecContext_run, PrepareContext_run, QueryContext_run]
  simp only [logEntries_afterCall]
  exact ⟨⟨_, rfl, branchEntry_level _ _ _ _⟩, ⟨_, rfl, branchEntry_level _ _ _ _⟩,
    ⟨_, rfl, branchEntry_level _ _ _ _⟩⟩

/-- C2: each of the four methods of the decorator built by `NewSQLLogger db logger` calls
the corresponding operation of `db` exactly once, with the context, statement and
parameters it was given, and returns exactly what that call returned (result and error
alike), for every logger. -/
theorem C2_transparent_delegation {S Ctx Arg Err Res Stmt Rows Row : Type}
    (db : DB S Ctx Arg Err Res Stmt Rows Row) (logger : Logger S Ctx Arg Err) (ctx : Ctx)
    (query : GoString) (args : List Arg) (w : World S Ctx Arg Err) :
    (dbCalls (newEvents w (((NewSQLLogger db logger).ExecContext ctx query args).run w).2) =
        [(Op.Exec, ctx, query, args)] ∧
      (((NewSQLLogger db logger).ExecContext ctx query args).run w).1 =
        (db.exec ctx query args w.ext).1) ∧
    (dbCalls (newEvents w (((NewSQLLogger db logger).PrepareContext ctx query).run w).2) =
        [(Op.Prepare, ctx, query, [])] ∧
      (((NewSQLLogger db logger).PrepareContext ctx query).run w).1 =
        (db.prepare ctx query w.ext).1) ∧
    (dbCalls (newEvents w (((NewSQLLogger db logger).QueryContext ctx query args).run w).2) =
        [(Op.Query, ctx, query, args)] ∧
      (((NewSQLLogger db logger).QueryContext ctx query args).run w).1 =
        (db.query ctx query args w.ext).1) ∧
    (dbCalls (newEvents w
        (((NewSQLLogger db logger).QueryRowContext ctx query args).run w).2) =
        [(Op.QueryRow, ctx, query, args)] ∧
      (((NewSQLLogger db logger).QueryRowContext ctx query args).run w).1 =
        (db.queryRow ctx query args w.ext).1) := by
  refine ⟨⟨?_, ?_⟩, ⟨?_, ?_⟩, ⟨?_, ?_⟩, ⟨?_, ?_⟩⟩
  · rw [ExecContext_run]
    exact dbCalls_afterCall _ _ _ _ _ _ _ _
  · rw [ExecContext_run]
    rfl
  · rw [PrepareContext_run]
    exact dbCalls_afterCall _ _ _ _ _ _ _ _
  · rw [PrepareContext_run]
    rfl
  · rw [QueryContext_run]
    exact dbCalls_afterCall _ _ _ _ _ _ _ _
  · rw [QueryContext_run]
    rfl
  · rw [QueryRowContext_run]
    exact dbCalls_afterCall _ _ _ _ _ _ _ _
  · rw [QueryRowContext_run]
    rfl

/-- C3: when the underlying `ExecContext` (respectively `QueryContext`) returns the error
`E`, the decorator hands the logger exactly one entry: at Error level, with the fields
statement, parameter list, duration and the error `E`, in this order; no entry is at Debug
level. -/
theorem C3_error_entry {S Ctx Arg Err Res Stmt Rows Row : Type}
    (s : sqlLogger S Ctx Arg Err Res Stmt Rows Row) (ctx : Ctx) (query : GoString) (args : List Arg) (w : World S Ctx Arg Err) :
    (∀ E, (s.db.exec ctx query args w.ext).1.2 = some E →
      logEntries (newEvents w ((s.ExecContext ctx query args).run w).2) =
          [{ level := ErrorLevel, scope := some ctx, msg := goStr "SQL Exec",
             fields := [Field.String (goStr "sql") query, Field.Any (goStr "args") args,
               Field.Duration (goStr "duration") (subMono (w.clock (w.tick + 1)) (w.clock w.tick)),
               Field.Error (goStr "error") E] }] ∧
        ∀ e ∈ logEntries (newEvents w ((s.ExecContext ctx query args).run w).2),
          e.level ≠ DebugLevel) ∧
    (∀ E, (s.db.query ctx query args w.ext).1.2 = some E →
      logEntries (newEvents w ((s.QueryContext ctx query args).run w).2) =
          [{ level := ErrorLevel, scope := some ctx, msg := goStr "SQL Query",
             fields := [Field.String (goStr "sql") query, Field.Any (goStr "args") args,
               Field.Duration (goStr "duration") (subMono (w.clock (w.tick + 1)) (w.clock w.tick)),
               Field.Error (goStr "error") E] }] ∧
        ∀ e ∈ logEntries (newEvents w ((s.QueryContext ctx query args).run w).2),
          e.level ≠ DebugLevel) := by
  constructor
  · intro E hE
    rw [ExecContext_run, hE]
    simp only [logEntries_afterCall]
    simp [branchEntry, ErrorLevel, DebugLevel]
  · intro E hE
    rw [QueryContext_run, hE]
    simp only [logEntries_afterCall]
    simp [branchEntry, ErrorLevel, DebugLevel]

/-- C3 at a concrete input: the example handle fails on the empty statement with error
`3`, and the decorator logs one Error entry carrying that error. -/
theorem C3_error_entry_witness :
    (exSQL.db.exec 7 [] [1, 2] exWorld.ext).1.2 = some 3 ∧
    (logEntries (newEvents exWorld ((exSQL.ExecContext 7 [] [1, 2]).run exWorld).2) =
        [{ level := ErrorLevel, scope := some 7, msg := goStr "SQL Exec",
           fields := [Field.String (goStr "sql") [], Field.Any (goStr "args") [1, 2],
             Field.Duration (goStr "duration") 10, Field.Error (goStr "error") 3] }] ∧
      ∀ e ∈ logEntries (newEvents exWorld ((exSQL.ExecContext 7 [] [1, 2]).run exWorld).2),
        e.level ≠ DebugLevel) ∧
    (exSQL.db.query 7 [] [1, 2] exWorld.ext).1.2 = some 3 ∧
    (logEntries (newEvents exWorld ((exSQL.QueryContext 7 [] [1, 2]).run exWorld).2) =
        [{ level := ErrorLevel, scope := some 7, msg := goStr "SQL Query",
           fields := [Field.String (goStr "sql") [], Field.Any (goStr "args") [1, 2],
             Field.Duration (goStr "duration") 10, Field.Error (goStr "error") 3] }] ∧
      ∀ e ∈ logEntries (newEvents exWorld ((exSQL.QueryContext 7 [] [1, 2]).run exWorld).2),
        e.level ≠ DebugLevel) :=
  ⟨by decide, (C3_error_entry exSQL 7 [] [1, 2] exWorld).1 3 (by decide), by decide,
    (C3_error_entry exSQL 7 [] [1, 2] exWorld).2 3 (by decide)⟩

/-- C4: when the underlying `ExecContext` (respectively `QueryContext`) returns a nil
error, the decorator hands the logger exactly one entry: at Debug level, with the fields
statement, parameter list (as given, in order) and duration; no field of it is an error
field. -/
theorem C4_success_entry {S Ctx Arg Err Res Stmt Rows Row : Type}
    (s : sqlLogger S Ctx Arg Err Res Stmt Rows Row) (ctx : Ctx) (query : GoString) (args : List Arg) (w : World S Ctx Arg Err) :
    ((s.db.exec ctx query args w.ext).1.2 = none →
      logEntries (newEvents w ((s.ExecContext ctx query args).run w).2) =
          [{ level := DebugLevel, scope := some ctx, msg := goStr "SQL Exec",
             fields := [Field.String (goStr "sql") query, Field.Any (goStr "args") args,
               Field.Duration (goStr "duration") (subMono (w.clock (w.tick + 1)) (w.clock w.tick))] }] ∧
        ∀ e ∈ logEntries (newEvents w ((s.ExecContext ctx query args).run w).2),
          ∀ k v, Field.Error k v ∉ e.fields) ∧
    ((s.db.query ctx query args w.ext).1.2 = none →
      logEntries (newEvents w ((s.QueryContext ctx query args).run w).2) =
          [{ level := DebugLevel, scope := some ctx, msg := goStr "SQL Query",
             fields := [Field.String (goStr "sql") query, Field.Any (goStr "args") args,
               Field.Duration (goStr "duration") (subMono (w.clock (w.tick + 1)) (w.clock w.tick))] }] ∧
        ∀ e ∈ logEntries (newEvents w ((s.QueryContext ctx query args).run w).2),
          ∀ k v, Field.Error k v ∉ e.fields) := by
  constructor
  · intro hE
    rw [ExecContext_run, hE]
    simp only [logEntries_afterCall]
    simp [branchEntry]
  · intro hE
    rw [QueryContext_run, hE]
    simp only [logEntries_afterCall]
    simp [branchEntry]

/-- C4 at a concrete input: the example handle succeeds on the statement `"a"`, and the
decorator logs one Debug entry with the statement, the parameters `1, 2` and the
duration. -/
theorem C4_success_entry_witness :
    (exSQL.db.exec 7 (goStr "a") [1, 2] exWorld.ext).1.2 = none ∧
    (logEntries (newEvents exWorld ((exSQL.ExecContext 7 (goStr "a") [1, 2]).run exWorld).2) =
        [{ level := DebugLevel, scope := some 7, msg := goStr "SQL Exec",
           fields := [Field.String (goStr "sql") (goStr "a"),
             Field.Any (goStr "args") [1, 2], Field.Duration (goStr "duration") 10] }] ∧
      ∀ e ∈ logEntries
          (newEvents exWorld ((exSQL.ExecContext 7 (goStr "a") [1, 2]).run exWorld).2),
        ∀ k v, Field.Error k v ∉ e.fields) ∧
    (exSQL.db.query 7 (goStr "a") [1, 2] exWorld.ext).1.2 = none ∧
    (logEntries (newEvents exWorld ((exSQL.QueryContext 7 (goStr "a") [1, 2]).run exWorld).2) =
        [{ level := DebugLevel, scope := some 7, msg := goStr "SQL Query",
           fields := [Field.String (goStr "sql") (goStr "a"),
             Field.Any (goStr "args") [1, 2], Field.Duration (goStr "duration") 10] }] ∧
      ∀ e ∈ logEntries
          (newEvents exWorld ((exSQL.QueryContext 7 (goStr "a") [1, 2]).run exWorld).2),
        ∀ k v, Field.Error k v ∉ e.fields) :=
  ⟨by decide, (C4_success_entry exSQL 7 (goStr "a") [1, 2] exWorld).1 (by decide), by decide,
    (C4_success_entry exSQL 7 (goStr "a") [1, 2] exWorld).2 (by decide)⟩

/-- C5: `QueryRowContext` hands the logger exactly one entry, at Debug level, with the
fields statement, parameter list and duration, whatever the underlying handle returns; no
entry of the call is at Error level. -/
theorem C5_queryrow_always_debug {S Ctx Arg Err Res Stmt Rows Row : Type}
    (s : sqlLogger S Ctx Arg Err Res Stmt Rows Row) (ctx : Ctx) (query : GoString) (args : List Arg) (w : World S Ctx Arg Err) :
    logEntries (newEvents w ((s.QueryRowContext ctx query args).run w).2) =
        [{ level := DebugLevel, scope := some ctx, msg := goStr "SQL QueryRow",
           fields := [Field.String (goStr "sql") query, Field.Any (goStr "args") args,
             Field.Duration (goStr "duration") (subMono (w.clock (w.tick + 1)) (w.clock w.tick))] }] ∧
      ∀ e ∈ logEntries (newEvents w ((s.QueryRowContext ctx query args).run w).2),
        e.level = DebugLevel ∧ e.level ≠ ErrorLevel := by
  rw [QueryRowContext_run]
  simp only [logEntries_afterCall]
  simp [ErrorLevel, DebugLevel]

/-- C6: for every byte buffer `p`, every sink and every world, `Write` returns
`n = len(p)` and a nil error, whether or not the sink's level is enabled; when the level is
disabled it hands no entry to the logger and still returns `len(p)`. -/
theorem C6_write_reports_full_length {S Ctx Arg Err : Type}
    (w : ginLoggerWriter S Ctx Arg Err) (p : List UInt8) (st : World S Ctx Arg Err) :
    ((w.Write p).run st).1 = ((p.length : Int), none) ∧
    (w.logger.enabled w.level = false →
      logEntries (newEvents st ((w.Write p).run st).2) = [] ∧
        ((w.Write p).run st).1.1 = (p.length : Int)) := by
  refine ⟨?_, fun h => ⟨?_, ?_⟩⟩
  · rw [Write_run]
    rfl
  · rw [newEvents_write, h]
    rfl
  · rw [Write_run]
    rfl

/-- C6 at a concrete input: on the logger with no level enabled, writing `"hi\n"` hands
over no entry and returns `3`. -/
theorem C6_write_reports_full_length_witness :
    exQuietWriter.logger.enabled exQuietWriter.level = false ∧
    logEntries (newEvents exWorld ((exQuietWriter.Write (goStr "hi\n")).run exWorld).2) = [] ∧
    ((exQuietWriter.Write (goStr "hi\n")).run exWorld).1.1 = 3 :=
  ⟨by decide,
    (C6_write_reports_full_length exQuietWriter (goStr "hi\n") exWorld).2 (by decide)⟩

/-- C7, the claim as stated fails: the buffer `"a\n\n"` ends in a newline, and the text
`Write` emits for it is `"a"`, not the buffer without its last newline (`"a\n"`). -/
theorem C7_counterexample :
    ([97, 10, 10] : List UInt8).getLast? = some 10 ∧
    (logEntries (newEvents exWorld ((exWriter.Write [97, 10, 10]).run exWorld).2)).map
        Entry.msg = [[97]] ∧
    (logEntries (newEvents exWorld ((exWriter.Write [97, 10, 10]).run exWorld).2)).map
        Entry.msg ≠ [([97, 10, 10] : List UInt8).dropLast] := by
  decide

/-- C7 as amended: the text `Write` emits (when the level is enabled) is `p` with every
trailing newline stripped: `p` is that text followed by newlines only, the text does not
end in a newline, and a `p` that does not end in a newline is emitted unchanged. -/
theorem C7_strips_all_trailing_newlines {S Ctx Arg Err : Type}
    (w : ginLoggerWriter S Ctx Arg Err) (p : List UInt8) (st : World S Ctx Arg Err)
    (h : w.logger.enabled w.level = true) :
    ∃ (t : GoString) (k : Nat),
      (logEntries (newEvents st ((w.Write p).run st).2)).map Entry.msg = [t] ∧
        p = t ++ List.replicate k 10 ∧ t.getLast? ≠ some 10 ∧
        (p.getLast? ≠ some 10 → t = p) := by
  obtain ⟨k, hk, hlast⟩ := TrimRight_newline_spec (string p)
  refine ⟨TrimRight (string p) (goStr "\n"), k, ?_, hk, hlast, ?_⟩
  · rw [newEvents_write, if_pos h]
    rfl
  · intro hp
    cases k with
    | zero => simpa using hk.symm
    | succ n =>
      exfalso
      apply hp
      have hk2 : p = (TrimRight (string p) (goStr "\n") ++ List.replicate n 10) ++ [10] := by
        rw [List.append_assoc, ← List.replicate_succ']
        exact hk
      rw [hk2]
      simp

/-- C7 as amended, at a concrete input: the enabled sink emits `"a"` for `"a\n\n"`. -/
theorem C7_strips_all_trailing_newlines_witness :
    exWriter.logger.enabled exWriter.level = true ∧
    ∃ (t : GoString) (k : Nat),
      (logEntries (newEvents exWorld ((exWriter.Write [97, 10, 10]).run exWorld).2)).map
          Entry.msg = [t] ∧
        [97, 10, 10] = t ++ List.replicate k 10 ∧ t.getLast? ≠ some 10 ∧
        (([97, 10, 10] : List UInt8).getLast? ≠ some 10 → t = [97, 10, 10]) :=
  ⟨by decide, C7_strips_all_trailing_newlines exWriter [97, 10, 10] exWorld (by decide)⟩

/-- C8: for every byte buffer `p`, `Write` hands the logger exactly one entry when the
sink's level is enabled, at the sink's level, with the trimmed text of `p` as message and
no fields, and no entry when the level is not enabled.  For the input `"hello\n"` the
message is `"hello"` and the returned count is 6. -/
theorem C8_sink_emits_trimmed_text {S Ctx Arg Err : Type}
    (w : ginLoggerWriter S Ctx Arg Err) (p : List UInt8) (st : World S Ctx Arg Err) :
    logEntries (newEvents st ((w.Write p).run st).2) =
        (if w.logger.enabled w.level = true then
          [{ level := w.level, scope := w.logger.scope,
             msg := TrimRight (string p) (goStr "\n"), fields := [] }]
        else []) ∧
    (logEntries (newEvents st ((w.Write (goStr "hello\n")).run st).2)).map Entry.msg =
        (if w.logger.enabled w.level = true then [goStr "hello"] else []) ∧
    ((w.Write (goStr "hello\n")).run st).1 = (6, none) := by
  refine ⟨newEvents_write w p st, ?_, ?_⟩
  · rw [newEvents_write]
    have htrim : TrimRight (string (goStr "hello\n")) (goStr "\n") = goStr "hello" := by
      decide
    rw [htrim]
    cases w.logger.enabled w.level <;> rfl
  · rw [Write_run]
    rfl

/-- C9: each of the four methods performs exactly four effects, in this order: a clock
read, the call of the underlying handle, a second clock read, the log entry.  So the one
log entry comes after the underlying call has returned, and nothing but the underlying call
lies between the two clock reads.  The duration field of the entry is `time.Since` of the
first reading taken at the second; when the clock is a non-decreasing sequence of
monotonic readings this is the difference of the two readings and is not negative. -/
theorem C9_effect_order_and_duration {S Ctx Arg Err Res Stmt Rows Row : Type}
    (s : sqlLogger S Ctx Arg Err Res Stmt Rows Row) (ctx : Ctx) (query : GoString) (args : List Arg) (w : World S Ctx Arg Err) :
    (∃ e, ((s.ExecContext ctx query args).run w).2.trace = w.trace ++
          [Event.clockRead (w.clock w.tick), Event.dbCall Op.Exec ctx query args,
            Event.clockRead (w.clock (w.tick + 1)), Event.logEntry e] ∧
        ∀ k d, Field.Duration k d ∈ e.fields ↔ k = goStr "duration" ∧ d = (subMono (w.clock (w.tick + 1)) (w.clock w.tick))) ∧
    (∃ e, ((s.PrepareContext ctx query).run w).2.trace = w.trace ++
          [Event.clockRead (w.clock w.tick), Event.dbCall Op.Prepare ctx query [],
            Event.clockRead (w.clock (w.tick + 1)), Event.logEntry e] ∧
        ∀ k d, Field.Duration k d ∈ e.fields ↔ k = goStr "duration" ∧ d = (subMono (w.clock (w.tick + 1)) (w.clock w.tick))) ∧
    (∃ e, ((s.QueryContext ctx query args).run w).2.trace = w.trace ++
          [Event.clockRead (w.clock w.tick), Event.dbCall Op.Query ctx query args,
            Event.clockRead (w.clock (w.tick + 1)), Event.logEntry e] ∧
        ∀ k d, Field.Duration k d ∈ e.fields ↔ k = goStr "duration" ∧ d = (subMono (w.clock (w.tick + 1)) (w.clock w.tick))) ∧
    (∃ e, ((s.QueryRowContext ctx query args).run w).2.trace = w.trace ++
          [Event.clockRead (w.clock w.tick), Event.dbCall Op.QueryRow ctx query args,
            Event.clockRead (w.clock (w.tick + 1)), Event.logEntry e] ∧
        ∀ k d, Field.Duration k d ∈ e.fields ↔ k = goStr "duration" ∧ d = (subMono (w.clock (w.tick + 1)) (w.clock w.tick))) ∧
    (ClockOK w.clock →
      (subMono (w.clock (w.tick + 1)) (w.clock w.tick)) = w.clock (w.tick + 1) - w.clock w.tick ∧ 0 ≤ (subMono (w.clock (w.tick + 1)) (w.clock w.tick))) := by
  rw [ExecContext_run, PrepareContext_run, QueryContext_run, QueryRowContext_run]
  refine ⟨⟨_, rfl, fun k d => ?_⟩, ⟨_, rfl, fun k d => ?_⟩, ⟨_, rfl, fun k d => ?_⟩,
    ⟨_, rfl, fun k d => ?_⟩, fun h => subMono_of_clockOK w.clock h _ _ (Nat.le_succ _)⟩
  · rw [branchEntry_duration]
    simp
  · rw [branchEntry_duration]
    simp
  · rw [branchEntry_duration]
    simp
  · simp

/-- C9 at a concrete input: the example clock is a non-decreasing sequence of monotonic
readings, and the duration logged in the example world is `10 - 0`. -/
theorem C9_effect_order_and_duration_witness :
    ClockOK exWorld.clock ∧
    subMono (exWorld.clock (exWorld.tick + 1)) (exWorld.clock exWorld.tick) =
        exWorld.clock (exWorld.tick + 1) - exWorld.clock exWorld.tick ∧
      0 ≤ subMono (exWorld.clock (exWorld.tick + 1)) (exWorld.clock exWorld.tick) :=
  ⟨exClock_ok,
    (C9_effect_order_and_duration exSQL 7 (goStr "a") [1, 2] exWorld).2.2.2.2 exClock_ok⟩

/-- C10: `PrepareContext` hands the logger exactly one entry, whose fields are the
statement and the duration, followed by the error when the underlying call failed; the
entry is at Error level on failure and at Debug level on success; no field is a
parameter-list field; and the method returns the prepared handle and the error exactly as
the underlying handle returned them. -/
theorem C10_prepare_entry_and_result {S Ctx Arg Err Res Stmt Rows Row : Type}
    (s : sqlLogger S Ctx Arg Err Res Stmt Rows Row) (ctx : Ctx) (query : GoString) (w : World S Ctx Arg Err) :
    logEntries (newEvents w ((s.PrepareContext ctx query).run w).2) =
        [match (s.db.prepare ctx query w.ext).1.2 with
          | some E =>
            { level := ErrorLevel, scope := some ctx, msg := goStr "SQL Prepare",
              fields := [Field.String (goStr "sql") query,
                Field.Duration (goStr "duration") (subMono (w.clock (w.tick + 1)) (w.clock w.tick)), Field.Error (goStr "error") E] }
          | none =>
            { level := DebugLevel, scope := some ctx, msg := goStr "SQL Prepare",
              fields := [Field.String (goStr "sql") query,
                Field.Duration (goStr "duration") (subMono (w.clock (w.tick + 1)) (w.clock w.tick))] }] ∧
    (∀ e ∈ logEntries (newEvents w ((s.PrepareContext ctx query).run w).2),
      ∀ k v, Field.Any k v ∉ e.fields) ∧
    ((s.PrepareContext ctx query).run w).1 = (s.db.prepare ctx query w.ext).1 := by
  refine ⟨?_, ?_, ?_⟩
  · rw [PrepareContext_run, logEntries_afterCall]
    cases (s.db.prepare ctx query w.ext).1.2 <;> rfl
  · rw [PrepareContext_run, logEntries_afterCall]
    cases (s.db.prepare ctx query w.ext).1.2 <;> simp [branchEntry]
  · rw [PrepareContext_run]

end SijiutechPkg
